import Mathlib

/-!
Shallow embedding of `src/input.py` — the buffered video-reader engine
(`VideoReader`, `FileVideoReader`, `RemoteFileStreamAdapter`, `RemoteFileReader`)
— together with theorems settling the specification claims about it.

Modelling conventions:
  - a byte is a natural number (0–255 for real bytes);
  - the underlying resource is a `List Byte`; a local-file byte source is the
    pair (resource, current position) with Python file semantics: `read(n)`
    returns up to `n` bytes (short at end of file, never an error),
    `read()` returns the whole remainder;
  - the remote byte source pulls single-byte chunks with `next`, which raises
    `StopIteration` when exhausted; this fallible read returns an `Option`;
  - `bytearray` becomes `List Byte`, the Python `int` cursor `_buffer_pointer`
    becomes `Int` (it starts at `-1`);
  - the number of `stream.close()` calls is tracked in `closedCount` so that
    the reopening branch of `refresh` is observable.
-/

namespace VideoInfo

/-- A byte, modelled as a natural number (0–255 for real bytes). -/
abbrev Byte := Nat

/-- Byte order accepted by `int.from_bytes` (src/input.py passes the strings
`big` and `little`; any other string raises in Python, so the valid values form
this two-element type). -/
inductive Byteorder where
  | big
  | little
deriving Repr, DecidableEq

/-- Python `int.from_bytes(bs, byteorder)`: big-endian folds most significant
byte first; little-endian is the same fold on the reversed sequence. -/
def intFromBytes (bs : List Byte) (byteorder : Byteorder) : Nat :=
  match byteorder with
  | .big => bs.foldl (fun acc b => acc * 256 + b) 0
  | .little => bs.reverse.foldl (fun acc b => acc * 256 + b) 0

/-- Mutable state of a `VideoReader` over a local-file byte source
(src/input.py lines 37–49).  `streamPos` is the implicit position of the
underlying file handle; `buffer` is `self._buffer`; `bufferPointer` is
`self._buffer_pointer` (starts at `-1`); `closedCount` counts calls to
`self.stream.close()`. -/
structure ReaderState where
  maxBufferLength : Nat
  totalBytes : Int
  streamPos : Nat
  buffer : List Byte
  bufferPointer : Int
  closedCount : Nat
deriving Repr, DecidableEq

/-- Embedding of `stream.read(n)` for a local file handle over resource `src` at position
`pos`: Python returns up to `n` bytes, short (possibly empty) at end of file,
without raising. -/
def fileStreamRead (src : List Byte) (pos n : Nat) : List Byte :=
  (src.drop pos).take n

/-- The reader state right after `VideoReader.__init__` (src/input.py lines
37–49): fresh stream at position 0, empty buffer, `_buffer_pointer = -1`.
`totalBytes` is whatever `_init_total_bytes` computed (the adapters differ). -/
def VideoReader.init (maxBufferLength : Nat) (totalBytes : Int) : ReaderState :=
  { maxBufferLength := maxBufferLength
    totalBytes := totalBytes
    streamPos := 0
    buffer := []
    bufferPointer := -1
    closedCount := 0 }

/-- Embedding of `VideoReader._is_buffer_full` (src/input.py lines 59–60):
`len(self._buffer) > self.max_buffer_length`. -/
def VideoReader.isBufferFull (s : ReaderState) : Bool :=
  s.buffer.length > s.maxBufferLength

/-- Embedding of `VideoReader.read` (src/input.py lines 83–108) over a local-file byte
source.  Returns the bytes handed back to the caller and the updated state.

  - `num_of_byte < 0`: `return self.stream.read()` — all remaining bytes of
    the source from its current position, buffer untouched;
  - buffer full: read from the source directly, no mirroring;
  - `buffer_len == _buffer_pointer + 1` (frontier): read from the source,
    append to the buffer, advance the pointer by `num_of_byte`;
  - at least `num_of_byte` unread buffered bytes: serve the slice
    `_buffer[p - n + 1 : p + 1]` (after `p += n`), no source access;
  - otherwise (straddling): remaining buffered bytes plus a source read of the
    missing amount, appending only the fresh part.

Python slice indices here are nonnegative whenever
`0 ≤ _buffer_pointer + 1 ≤ len(_buffer)` holds (the reachable states), so the
slice is rendered with `Int.toNat` clamping.  A file `read(n)` advances the
handle position by at most the remaining length, hence the `min`. -/
def VideoReader.read (src : List Byte) (s : ReaderState) (numOfByte : Int) :
    List Byte × ReaderState :=
  if numOfByte < 0 then
    (src.drop s.streamPos, { s with streamPos := src.length })
  else if VideoReader.isBufferFull s then
    (fileStreamRead src s.streamPos numOfByte.toNat,
     { s with streamPos := min src.length (s.streamPos + numOfByte.toNat) })
  else if (s.buffer.length : Int) = s.bufferPointer + 1 then
    let data := fileStreamRead src s.streamPos numOfByte.toNat
    (data,
     { s with buffer := s.buffer ++ data
              streamPos := min src.length (s.streamPos + numOfByte.toNat)
              bufferPointer := s.bufferPointer + numOfByte })
  else if (s.buffer.length : Int) - (s.bufferPointer + 1) ≥ numOfByte then
    let p := s.bufferPointer + numOfByte
    ((s.buffer.take (p + 1).toNat).drop (p - numOfByte + 1).toNat,
     { s with bufferPointer := p })
  else
    let dataBufferPart := s.buffer.drop (s.bufferPointer + 1).toNat
    let remainedNotReadNum :=
      numOfByte - ((s.buffer.length : Int) - (s.bufferPointer + 1))
    let dataReadPart := fileStreamRead src s.streamPos remainedNotReadNum.toNat
    (dataBufferPart ++ dataReadPart,
     { s with buffer := s.buffer ++ dataReadPart
              streamPos := min src.length (s.streamPos + remainedNotReadNum.toNat)
              bufferPointer := s.bufferPointer + numOfByte })

/-- Embedding of `VideoReader.refresh` (src/input.py lines 110–116): when the buffer has
overflowed, close the stream, reopen it (a local-file `_open_stream` reopens
the same path, so the fresh handle sits at position 0) and clear the buffer;
in every case reset `_buffer_pointer` to `-1`. -/
def VideoReader.refresh (s : ReaderState) : ReaderState :=
  if VideoReader.isBufferFull s then
    { s with closedCount := s.closedCount + 1
             streamPos := 0
             buffer := []
             bufferPointer := -1 }
  else
    { s with bufferPointer := -1 }

/-- A sequence of `read` calls: returns the concatenation of all bytes handed
back and the final state. -/
def VideoReader.readSeq (src : List Byte) (s : ReaderState) :
    List Nat → List Byte × ReaderState
  | [] => ([], s)
  | n :: ns =>
    let r := VideoReader.read src s (n : Int)
    let rest := VideoReader.readSeq src r.2 ns
    (r.1 ++ rest.1, rest.2)

/-- The cursor invariant stated by the specification:
`0 <= cursor_position + 1 <= len(buffer)`. -/
def VideoReader.CursorInvariant (s : ReaderState) : Prop :=
  0 ≤ s.bufferPointer + 1 ∧ s.bufferPointer + 1 ≤ (s.buffer.length : Int)

instance (s : ReaderState) : Decidable (VideoReader.CursorInvariant s) := by
  unfold VideoReader.CursorInvariant; infer_instance

/-- The digit list produced by
`bin(x).lstrip('0b').zfill(width)` (src/input.py lines 74–76): the binary
digits of `x`, most significant first, left-padded with zeros to `width`
characters.  For `x < 2 ^ width` — always the case when `x` comes from
`width / 8` real bytes — digit `i` is `x / 2 ^ (width - 1 - i) % 2`. -/
def afterPointBits (x width : Nat) : List Nat :=
  (List.range width).map fun i => x / 2 ^ (width - 1 - i) % 2

/-- Embedding of `VideoReader.read_float` (src/input.py lines 65–78): read
`before_point_num_of_byte` bytes as the integer part, then
`after_point_num_of_byte` bytes whose bits, most significant first, contribute
`2 ^ (-1 - i)` each; the result is their sum, modelled exactly in `ℚ` (each
Python float involved — `2 ** (-1 - i)`, the bit values and their sum — is an
exact dyadic value for the byte widths the format uses). -/
def VideoReader.read_float (src : List Byte) (s : ReaderState)
    (beforePointNumOfByte afterPointNumOfByte : Nat) (byteorder : Byteorder) :
    ℚ × ReaderState :=
  let r1 := VideoReader.read src s (beforePointNumOfByte : Int)
  let beforePointNum := intFromBytes r1.1 byteorder
  let r2 := VideoReader.read src r1.2 (afterPointNumOfByte : Int)
  let bits := afterPointBits (intFromBytes r2.1 byteorder) (afterPointNumOfByte * 8)
  let afterPointNum : ℚ :=
    ((List.range (afterPointNumOfByte * 8)).map
      fun i => ((bits.getD i 0 : Nat) : ℚ) * ((2 : ℚ) ^ (i + 1))⁻¹).sum
  ((beforePointNum : ℚ) + afterPointNum, r2.2)

/-- State of the single-byte chunk iterator inside `RemoteFileStreamAdapter`
(src/input.py lines 171–175): the full response body and the position of the
next unconsumed byte. -/
structure RemoteStreamState where
  content : List Byte
  pos : Nat
deriving Repr, DecidableEq

/-- Embedding of `RemoteFileStreamAdapter.read` (src/input.py lines 177–182): for
`num_of_byte >= 0` it pulls that many single-byte chunks with `next`, which
raises `StopIteration` (modelled as `none`) when the body is exhausted before
`num_of_byte` bytes are collected; for negative `num_of_byte` it drains the
iterator. -/
def RemoteFileStreamAdapter.read (st : RemoteStreamState) (numOfByte : Int) :
    Option (List Byte × RemoteStreamState) :=
  if 0 ≤ numOfByte then
    if st.pos + numOfByte.toNat ≤ st.content.length then
      some ((st.content.drop st.pos).take numOfByte.toNat,
            { st with pos := st.pos + numOfByte.toNat })
    else
      none
  else
    some (st.content.drop st.pos, { st with pos := st.content.length })

/-- Embedding of `FileVideoReader.__init__` (src/input.py lines 150–153).  The file system
is a map from paths to sizes of existing files.  When the path does not exist
or the file is empty, the constructor raises before `super().__init__` runs,
so no buffer state is ever created; otherwise the reader starts fresh with
`total_bytes` set to the on-disk size (lines 158–159). -/
def FileVideoReader.init (fs : String → Option Nat) (videoLoc : String)
    (maxBufferLength : Nat) : Except String ReaderState :=
  if (fs videoLoc).isNone ∨ ¬ 0 < (fs videoLoc).getD 0 then
    .error ("File " ++ videoLoc ++ " not exist.")
  else
    .ok (VideoReader.init maxBufferLength ((fs videoLoc).getD 0 : Int))

/-- Python `s.startswith(pre)`: the characters of `pre` are a prefix of the
characters of `s`. -/
def pyStartswith (s pre : String) : Bool :=
  pre.toList.isPrefixOf s.toList

/-- An HTTP/FTP response as the remote reader sees it: status code, response
headers and the streamed body. -/
structure HttpResponse where
  statusCode : Nat
  headers : List (String × String)
  content : List Byte

/-- Faithful embedding of `RemoteFileReader._init_total_bytes` (src/input.py
lines 207–212).  The code evaluates
`self.response.headers.get['Content-Length']`: it subscripts the bound method
`get` instead of calling it, which raises `TypeError` on every response; the
bare `except: pass` swallows the error, so `total_bytes` always keeps the
value `-1` it was initialised with on line 44, whatever the headers hold. -/
def RemoteFileReader.initTotalBytes (headers : List (String × String)) : Int :=
  match headers with
  | _ => -1

/-- Python `int(s)` restricted to plain digit strings (the shape a
Content-Length value takes), over the character list of the string. -/
def parseNatDigits : List Char → Option Nat
  | [] => none
  | cs =>
    if cs.all Char.isDigit then
      some (cs.foldl (fun acc c => acc * 10 + (c.toNat - 48)) 0)
    else none

/-- Modelled from the spec: what lines 207–212 evidently intend —
`int(self.response.headers.get('Content-Length'))` — parse a Content-Length
header when present, leaving `-1` when the header is absent or unparseable. -/
def RemoteFileReader.initTotalBytesIntended (headers : List (String × String)) : Int :=
  match (headers.lookup "Content-Length").bind (fun v => parseNatDigits v.toList) with
  | some n => (n : Int)
  | none => -1

/-- Result of `RemoteFileReader.__init__` (src/input.py lines 190–205):
`sysExit` models the `sys.exit(-1)` taken when the location lacks an
`http`/`ftp` scheme — before any network request; `error` models the exception
raised on a non-200 status; on success the reader state and the adapter's
iterator state are returned. -/
inductive RemoteInitResult where
  | sysExit (code : Int)
  | error (msg : String)
  | ok (reader : ReaderState) (stream : RemoteStreamState)
deriving Repr, DecidableEq

/-- Embedding of `RemoteFileReader.__init__` plus its `_open_stream`/`_init_total_bytes`
hooks (src/input.py lines 190–212).  The network is a map from URLs to the
response a streaming GET would produce; it is consulted only after the scheme
check passes. -/
def RemoteFileReader.init (net : String → HttpResponse) (videoLoc : String)
    (maxBufferLength : Nat) : RemoteInitResult :=
  if ¬ pyStartswith videoLoc "http" ∧ ¬ pyStartswith videoLoc "ftp" then
    .sysExit (-1)
  else
    let response := net videoLoc
    if response.statusCode ≠ 200 then
      .error ("Can not open the remote video, _response status code: " ++
        toString response.statusCode)
    else
      .ok (VideoReader.init maxBufferLength
            (RemoteFileReader.initTotalBytes response.headers))
          { content := response.content, pos := 0 }

/-! ### Basic lemmas about the reader -/

lemma fileStreamRead_length (src : List Byte) (pos n : Nat) :
    (fileStreamRead src pos n).length = min n (src.length - pos) := by
  simp [fileStreamRead]

/-- A `read` issued at the buffer frontier with the buffer mirroring exactly
the consumed prefix of the source: the source fully serves the request and the
mirror structure is maintained. -/
lemma read_frontier (src : List Byte) (s : ReaderState) (n : Nat)
    (hbuf : s.buffer = src.take s.streamPos)
    (hp : s.bufferPointer = (s.streamPos : Int) - 1)
    (hlen : s.streamPos + n ≤ src.length)
    (hcap : s.streamPos + n ≤ s.maxBufferLength) :
    VideoReader.read src s (n : Int) =
      ((src.drop s.streamPos).take n,
       { s with buffer := src.take (s.streamPos + n)
                streamPos := s.streamPos + n
                bufferPointer := s.bufferPointer + n }) := by
  have hkle : s.streamPos ≤ src.length := le_trans (Nat.le_add_right _ _) hlen
  have hblen : s.buffer.length = s.streamPos := by
    rw [hbuf, List.length_take]; omega
  have hfull : ¬ VideoReader.isBufferFull s = true := by
    simp only [VideoReader.isBufferFull, decide_eq_true_eq, not_lt]
    omega
  have hmin : min src.length (s.streamPos + n) = s.streamPos + n :=
    Nat.min_eq_right hlen
  rw [VideoReader.read, if_neg (by omega), if_neg hfull,
      if_pos (by rw [hblen, hp]; ring)]
  simp only [fileStreamRead, Int.toNat_ofNat, hmin]
  rw [hbuf, ← List.take_add]

/-- Iterating `read_frontier` over a whole sequence of reads. -/
lemma readSeq_frontier (src : List Byte) (ns : List Nat) :
    ∀ s : ReaderState, s.buffer = src.take s.streamPos →
      s.bufferPointer = (s.streamPos : Int) - 1 →
      s.streamPos + ns.sum ≤ src.length →
      s.streamPos + ns.sum ≤ s.maxBufferLength →
      VideoReader.readSeq src s ns =
        ((src.drop s.streamPos).take ns.sum,
         { s with buffer := src.take (s.streamPos + ns.sum)
                  streamPos := s.streamPos + ns.sum
                  bufferPointer := s.bufferPointer + ns.sum }) := by
  induction ns with
  | nil =>
    intro s h1 h2 h3 h4
    simp only [VideoReader.readSeq, List.sum_nil, List.take_zero, Nat.add_zero,
      Nat.cast_zero, add_zero]
    refine Prod.ext rfl ?_
    rw [← h1]
  | cons n ns ih =>
    intro s h1 h2 h3 h4
    simp only [List.sum_cons] at h3 h4 ⊢
    have hr := read_frontier src s n h1 h2 (by omega) (by omega)
    rw [VideoReader.readSeq, hr]
    have hrec := ih { s with buffer := src.take (s.streamPos + n)
                             streamPos := s.streamPos + n
                             bufferPointer := s.bufferPointer + n }
      rfl (by simp only [h2]; push_cast; ring) (by simpa using by omega)
      (by simpa using by omega)
    rw [hrec]
    simp only [Prod.mk.injEq, ReaderState.mk.injEq, true_and, and_true]
    refine ⟨?_, ?_, ?_, ?_⟩
    · rw [List.take_add, List.drop_drop]
    · rw [Nat.add_assoc]
    · rw [Nat.add_assoc]
    · push_cast; ring

/-- A `read` from a clean cursor (empty buffer, pointer `-1`, fresh stream)
serves the request through the frontier case straight from offset 0. -/
lemma read_clean (src : List Byte) (s : ReaderState) (k : Nat)
    (hbuf : s.buffer = []) (hp : s.bufferPointer = -1) (hpos : s.streamPos = 0) :
    (VideoReader.read src s (k : Int)).1 = fileStreamRead src 0 k := by
  have hfull : ¬ VideoReader.isBufferFull s = true := by
    simp [VideoReader.isBufferFull, hbuf]
  rw [VideoReader.read, if_neg (by omega), if_neg hfull,
      if_pos (by rw [hbuf, hp]; simp)]
  simp [hpos]

/-- A `read` right after a cheap refresh (pointer `-1`, buffer within
capacity) of at most the buffered amount: the bytes come from the buffer and
neither the buffer nor the source position moves. -/
lemma read_after_cheap_refresh (src : List Byte) (s : ReaderState) (k : Nat)
    (hp : s.bufferPointer = -1)
    (hcap : s.buffer.length ≤ s.maxBufferLength)
    (hk : k ≤ s.buffer.length)
    (hpos : s.streamPos ≤ src.length) :
    (VideoReader.read src s (k : Int)).1 = s.buffer.take k ∧
    (VideoReader.read src s (k : Int)).2.streamPos = s.streamPos ∧
    (VideoReader.read src s (k : Int)).2.buffer = s.buffer := by
  have hfull : ¬ VideoReader.isBufferFull s = true := by
    simp only [VideoReader.isBufferFull, decide_eq_true_eq, not_lt]
    omega
  rcases Nat.eq_zero_or_pos s.buffer.length with hzero | hposlen
  · have hk0 : k = 0 := by omega
    rw [VideoReader.read, if_neg (by omega), if_neg hfull,
        if_pos (by rw [hzero, hp]; simp)]
    subst hk0
    simp [fileStreamRead, Nat.min_eq_right hpos]
  · rw [VideoReader.read, if_neg (by omega), if_neg hfull,
        if_neg (by rw [hp]; omega), if_pos (by rw [hp]; omega)]
    have h1 : (s.bufferPointer + (k : Int) + 1).toNat = k := by omega
    have h2 : (s.bufferPointer + 1).toNat = 0 := by omega
    simp [h1, h2]

/-- C1: every sequence of nonnegative `read` calls on a fresh reader whose
lengths sum to at most the capacity — so the buffer never overflows and, the
source holding enough bytes, every request is fully served — concatenates to
exactly the one-pass read of the resource from offset 0 for the total
length. -/
theorem read_composition_correct (src : List Byte) (cap : Nat) (tb : Int)
    (ns : List Nat) (hcap : ns.sum ≤ cap) (hlen : ns.sum ≤ src.length) :
    (VideoReader.readSeq src (VideoReader.init cap tb) ns).1 =
      fileStreamRead src 0 ns.sum := by
  have hrun := readSeq_frontier src ns (VideoReader.init cap tb) rfl
    (by norm_num [VideoReader.init]) (by simpa [VideoReader.init] using hlen)
    (by simpa [VideoReader.init] using hcap)
  rw [hrun]
  simp [fileStreamRead, VideoReader.init]

theorem read_composition_correct_witness :
    [1, 2].sum ≤ 10 ∧ [1, 2].sum ≤ [7, 8, 9, 4].length ∧
    (VideoInfo.VideoReader.readSeq [7, 8, 9, 4]
        (VideoInfo.VideoReader.init 10 (-1)) [1, 2]).1 =
      VideoInfo.fileStreamRead [7, 8, 9, 4] 0 [1, 2].sum :=
  ⟨by decide, by decide,
   read_composition_correct [7, 8, 9, 4] 10 (-1) [1, 2] (by decide) (by decide)⟩

/-- C2: after any sequence of reads summing to `m ≤ capacity` on a fresh
reader (so the buffer has not overflowed), `refresh` resets the pointer to
`-1` keeping the buffer, and `read(k)` for `k ≤ m` returns exactly the bytes
the same `read(k)` returns right after construction, without touching the
underlying source (its position does not move) or the buffer. -/
theorem cheap_refresh_replay (src : List Byte) (cap : Nat) (tb : Int)
    (ns : List Nat) (k : Nat)
    (hcap : ns.sum ≤ cap) (hlen : ns.sum ≤ src.length) (hk : k ≤ ns.sum) :
    let s := (VideoReader.readSeq src (VideoReader.init cap tb) ns).2
    let s' := VideoReader.refresh s
    s'.bufferPointer = -1 ∧ s'.buffer = s.buffer ∧
      (VideoReader.read src s' (k : Int)).1 =
        (VideoReader.read src (VideoReader.init cap tb) (k : Int)).1 ∧
      (VideoReader.read src s' (k : Int)).2.streamPos = s'.streamPos ∧
      (VideoReader.read src s' (k : Int)).2.buffer = s'.buffer := by
  intro s s'
  have hrun := readSeq_frontier src ns (VideoReader.init cap tb) rfl
    (by norm_num [VideoReader.init]) (by simpa [VideoReader.init] using hlen)
    (by simpa [VideoReader.init] using hcap)
  have hs : s = { (VideoReader.init cap tb) with
                    buffer := src.take ((VideoReader.init cap tb).streamPos + ns.sum)
                    streamPos := (VideoReader.init cap tb).streamPos + ns.sum
                    bufferPointer := (VideoReader.init cap tb).bufferPointer + ns.sum } :=
    congrArg Prod.snd hrun
  have hsbuf : s.buffer = src.take ns.sum := by rw [hs]; simp [VideoReader.init]
  have hsbuflen : s.buffer.length = ns.sum := by
    rw [hsbuf, List.length_take]; omega
  have hsmax : s.maxBufferLength = cap := by rw [hs]; simp [VideoReader.init]
  have hspos : s.streamPos = ns.sum := by rw [hs]; simp [VideoReader.init]
  have hcheap : ¬ VideoReader.isBufferFull s = true := by
    simp only [VideoReader.isBufferFull, decide_eq_true_eq, not_lt, hsbuflen, hsmax]
    exact hcap
  have hs' : s' = { s with bufferPointer := -1 } := by
    show VideoReader.refresh s = _
    rw [VideoReader.refresh, if_neg hcheap]
  have hread := read_after_cheap_refresh src s' k (by rw [hs'])
    (by rw [hs']; show s.buffer.length ≤ s.maxBufferLength; omega)
    (by rw [hs']; show k ≤ s.buffer.length; omega)
    (by rw [hs']; show s.streamPos ≤ src.length; omega)
  have hfresh := read_clean src (VideoReader.init cap tb) k rfl rfl rfl
  refine ⟨by rw [hs'], by rw [hs'], ?_, hread.2.1, hread.2.2⟩
  rw [hread.1, hfresh, hs', hsbuf]
  show (src.take ns.sum).take k = fileStreamRead src 0 k
  rw [List.take_take, Nat.min_eq_left hk]
  simp [fileStreamRead]

theorem cheap_refresh_replay_witness :
    [2, 1].sum ≤ 10 ∧ [2, 1].sum ≤ [7, 8, 9, 4].length ∧ 2 ≤ [2, 1].sum ∧
    ((VideoInfo.VideoReader.read [7, 8, 9, 4]
        (VideoInfo.VideoReader.refresh
          (VideoInfo.VideoReader.readSeq [7, 8, 9, 4]
            (VideoInfo.VideoReader.init 10 (-1)) [2, 1]).2) (2 : Nat)).1 =
      (VideoInfo.VideoReader.read [7, 8, 9, 4]
        (VideoInfo.VideoReader.init 10 (-1)) (2 : Nat)).1) :=
  ⟨by decide, by decide, by decide,
   (cheap_refresh_replay [7, 8, 9, 4] 10 (-1) [2, 1] 2
      (by decide) (by decide) (by decide)).2.2.1⟩

/-- C3: on a reader whose buffer has overflowed capacity, `refresh` closes the
byte source, reopens a fresh one at offset 0, clears the buffer and resets the
pointer, and a subsequent `read(k)` returns exactly the one-pass read of the
resource from offset 0 for length `k`. -/
theorem reopening_refresh_correct (src : List Byte) (s : ReaderState) (k : Nat)
    (hover : s.maxBufferLength < s.buffer.length) :
    (VideoReader.refresh s).closedCount = s.closedCount + 1 ∧
    (VideoReader.refresh s).buffer = [] ∧
    (VideoReader.refresh s).bufferPointer = -1 ∧
    (VideoReader.refresh s).streamPos = 0 ∧
    (VideoReader.read src (VideoReader.refresh s) (k : Int)).1 =
      fileStreamRead src 0 k := by
  have hfull : VideoReader.isBufferFull s = true := by
    simp only [VideoReader.isBufferFull, decide_eq_true_eq]
    exact hover
  have hs' : VideoReader.refresh s =
      { s with closedCount := s.closedCount + 1, streamPos := 0,
               buffer := [], bufferPointer := -1 } := by
    rw [VideoReader.refresh, if_pos hfull]
  refine ⟨by rw [hs'], by rw [hs'], by rw [hs'], by rw [hs'], ?_⟩
  exact read_clean src _ k (by rw [hs']) (by rw [hs']) (by rw [hs'])

theorem reopening_refresh_correct_witness :
    (ReaderState.mk 2 (-1) 3 [7, 8, 9] 2 0).maxBufferLength <
      (ReaderState.mk 2 (-1) 3 [7, 8, 9] 2 0).buffer.length ∧
    (VideoInfo.VideoReader.read [7, 8, 9, 4]
        (VideoInfo.VideoReader.refresh
          { maxBufferLength := 2, totalBytes := -1, streamPos := 3,
            buffer := [7, 8, 9], bufferPointer := 2, closedCount := 0 })
        (2 : Nat)).1 = VideoInfo.fileStreamRead [7, 8, 9, 4] 0 2 :=
  ⟨by decide,
   (reopening_refresh_correct [7, 8, 9, 4]
      { maxBufferLength := 2, totalBytes := -1, streamPos := 3,
        buffer := [7, 8, 9], bufferPointer := 2, closedCount := 0 } 2
      (by decide)).2.2.2.2⟩

/-- C7 (amended): the cursor invariant `0 <= _buffer_pointer + 1 <=
len(_buffer)` holds after construction, is preserved by every `refresh`, and
is preserved by every `read(n)` for which the underlying source can fully
serve the requested bytes (`streamPos + n ≤ len(src)`); a request past end of
file is the one way it breaks. -/
theorem cursor_invariant_preserved (src : List Byte) (cap : Nat) (tb : Int) :
    VideoReader.CursorInvariant (VideoReader.init cap tb) ∧
    (∀ (s : ReaderState) (n : Int), VideoReader.CursorInvariant s →
      (0 ≤ n → s.streamPos + n.toNat ≤ src.length) →
      VideoReader.CursorInvariant (VideoReader.read src s n).2) ∧
    (∀ s : ReaderState, VideoReader.CursorInvariant (VideoReader.refresh s)) := by
  refine ⟨by simp [VideoReader.CursorInvariant, VideoReader.init], ?_, ?_⟩
  · intro s n hinv hsrc
    obtain ⟨h1, h2⟩ := hinv
    rw [VideoReader.read]
    split_ifs with hneg hfull hfrontier hinside
    · exact ⟨h1, h2⟩
    · exact ⟨h1, h2⟩
    · have hn : 0 ≤ n := by omega
      have hd := fileStreamRead_length src s.streamPos n.toNat
      refine ⟨by dsimp; omega, ?_⟩
      dsimp
      rw [List.length_append, hd]
      omega
    · exact ⟨by dsimp; omega, by dsimp; omega⟩
    · have hn : 0 ≤ n := by omega
      have hd := fileStreamRead_length src s.streamPos
        (n - ((s.buffer.length : Int) - (s.bufferPointer + 1))).toNat
      refine ⟨by dsimp; omega, ?_⟩
      dsimp
      rw [List.length_append, hd]
      omega
  · intro s
    rw [VideoReader.refresh]
    split_ifs
    · exact ⟨by dsimp; omega, by dsimp; omega⟩
    · exact ⟨by dsimp; omega, by dsimp; omega⟩

theorem cursor_invariant_preserved_witness :
    VideoInfo.VideoReader.CursorInvariant (ReaderState.mk 10 (-1) 2 [1, 2] 1 0) ∧
    (0 ≤ (1 : Int) →
      (ReaderState.mk 10 (-1) 2 [1, 2] 1 0).streamPos + (1 : Int).toNat ≤
        ([1, 2, 3] : List Byte).length) ∧
    VideoInfo.VideoReader.CursorInvariant
      (VideoInfo.VideoReader.read [1, 2, 3] (ReaderState.mk 10 (-1) 2 [1, 2] 1 0) 1).2 :=
  ⟨by decide, by decide,
   (cursor_invariant_preserved [1, 2, 3] 10 (-1)).2.1
     { maxBufferLength := 10, totalBytes := -1, streamPos := 2,
       buffer := [1, 2], bufferPointer := 1, closedCount := 0 } 1
     (by decide) (by decide)⟩

/-- C7 counterexample: the claim as stated fails on the code.  On a 2-byte
file with capacity 10, the reachable state after the single call `read(5)` —
the file handle returns only the 2 available bytes, yet `_buffer_pointer`
advances by the full 5 — violates `0 <= cursor_position + 1 <= len(buffer)`. -/
theorem cursor_invariant_counterexample :
    ¬ VideoReader.CursorInvariant
        (VideoReader.read [10, 20] (VideoReader.init 10 (-1)) 5).2 := by
  decide

/-- Every state a non-closed reader over source `src` can be in: the state
right after construction, closed under arbitrary `read` and `refresh`
calls. -/
inductive Reachable (src : List Byte) : ReaderState → Prop where
  | init (maxBufferLength : Nat) (totalBytes : Int) :
      Reachable src (VideoReader.init maxBufferLength totalBytes)
  | read (s : ReaderState) (n : Int) (hs : Reachable src s) :
      Reachable src (VideoReader.read src s n).2
  | refresh (s : ReaderState) (hs : Reachable src s) :
      Reachable src (VideoReader.refresh s)

/-- Bounds every reachable state satisfies: the source position never passes
end of file, and the cursor can run past the buffer end only once the source
is exhausted (short reads happen only at end of file, which pins the file
position there). -/
lemma reachable_bounds {src : List Byte} {s : ReaderState} (h : Reachable src s) :
    s.streamPos ≤ src.length ∧
      (s.bufferPointer + 1 ≤ (s.buffer.length : Int) ∨ s.streamPos = src.length) := by
  induction h with
  | init maxBufferLength totalBytes => simp [VideoReader.init]
  | read s n hs ih =>
    obtain ⟨h1, h2⟩ := ih
    rw [VideoReader.read]
    split_ifs with hneg hfull hfrontier hinside
    · exact ⟨by dsimp; omega, by dsimp; omega⟩
    · refine ⟨by dsimp; omega, ?_⟩
      dsimp
      omega
    · have hd := fileStreamRead_length src s.streamPos n.toNat
      refine ⟨by dsimp; omega, ?_⟩
      dsimp
      rw [List.length_append, hd]
      omega
    · exact ⟨by dsimp; omega, by dsimp; omega⟩
    · have hd := fileStreamRead_length src s.streamPos
        (n - ((s.buffer.length : Int) - (s.bufferPointer + 1))).toNat
      refine ⟨by dsimp; omega, ?_⟩
      dsimp
      rw [List.length_append, hd]
      omega
  | refresh s hs ih =>
    rw [VideoReader.refresh]
    split_ifs
    · exact ⟨by dsimp; omega, by dsimp; omega⟩
    · exact ⟨by dsimp; omega, by dsimp; omega⟩

/-- A zero-length read is a no-op on every state within the reachable bounds,
whichever of the four cases of `read` runs; in the fourth case (cursor past
the buffer end) the source is exhausted, so its attempted read hands back
nothing and moves nothing. -/
lemma read_zero_of_bounds (src : List Byte) (s : ReaderState)
    (hpos : s.streamPos ≤ src.length)
    (hdisj : s.bufferPointer + 1 ≤ (s.buffer.length : Int) ∨
      s.streamPos = src.length) :
    VideoReader.read src s 0 = ([], s) := by
  rw [VideoReader.read, if_neg (by omega)]
  split_ifs with hfull hfrontier hinside
  · simp [fileStreamRead, Nat.min_eq_right hpos]
  · simp [fileStreamRead, Nat.min_eq_right hpos]
  · refine Prod.ext ?_ ?_
    · dsimp
      refine List.drop_eq_nil_of_le ?_
      simp only [add_zero, sub_zero, List.length_take]
      omega
    · dsimp
      rw [add_zero]
  · have hpose : s.streamPos = src.length := by
      rcases hdisj with h | h
      · exact absurd (by omega) hinside
      · exact h
    have hread : fileStreamRead src s.streamPos
        ((0 : Int) - ((s.buffer.length : Int) - (s.bufferPointer + 1))).toNat = [] := by
      rw [hpose, fileStreamRead, List.drop_eq_nil_of_le (le_refl _), List.take_nil]
    have hdropbuf : s.buffer.drop (s.bufferPointer + 1).toNat = [] :=
      List.drop_eq_nil_of_le (by omega)
    have hmin : min src.length (s.streamPos +
        ((0 : Int) - ((s.buffer.length : Int) - (s.bufferPointer + 1))).toNat) =
        s.streamPos := by omega
    refine Prod.ext ?_ ?_
    · dsimp
      rw [hdropbuf, hread, List.append_nil]
    · dsimp
      rw [hread, List.append_nil, add_zero, hmin]

/-- C10: on every state a non-closed reader can be in — the constructed state
followed by any sequence of `read` and `refresh` calls — `read(0)` returns
the empty byte string and leaves the whole state untouched: buffer contents,
cursor position and the underlying source position are all as before. -/
theorem read_zero_noop (src : List Byte) (s : ReaderState)
    (hs : Reachable src s) :
    VideoReader.read src s 0 = ([], s) := by
  obtain ⟨h1, h2⟩ := reachable_bounds hs
  exact read_zero_of_bounds src s h1 h2

theorem read_zero_noop_witness :
    Reachable [10, 20]
      (VideoInfo.VideoReader.read [10, 20]
        (VideoInfo.VideoReader.init 10 (-1)) 5).2 ∧
    VideoInfo.VideoReader.read [10, 20]
        (VideoInfo.VideoReader.read [10, 20]
          (VideoInfo.VideoReader.init 10 (-1)) 5).2 0 =
      ([], (VideoInfo.VideoReader.read [10, 20]
        (VideoInfo.VideoReader.init 10 (-1)) 5).2) :=
  ⟨Reachable.read (VideoInfo.VideoReader.init 10 (-1)) 5 (Reachable.init 10 (-1)),
   read_zero_noop [10, 20]
     (VideoInfo.VideoReader.read [10, 20] (VideoInfo.VideoReader.init 10 (-1)) 5).2
     (Reachable.read (VideoInfo.VideoReader.init 10 (-1)) 5 (Reachable.init 10 (-1)))⟩

/-- C4 (code bug, evaluated at the failing input): `read(num_of_byte)` with a
negative argument executes `return self.stream.read()` (src/input.py lines
88–89), bypassing the buffer entirely and leaving `_buffer_pointer` alone.
On source bytes [1, 2, 3] with capacity 10, after `read(2)` and a cheap
`refresh()`, `read(-1)` hands back only [3] — the un-prefetched remainder of
the source — not the buffered [1, 2] followed by [3] as the contract states;
the cursor also fails to advance by the number of bytes returned. -/
theorem read_negative_bypasses_buffer :
    (VideoReader.read [1, 2, 3]
        (VideoReader.refresh
          (VideoReader.read [1, 2, 3] (VideoReader.init 10 (-1)) 2).2) (-1)).1
      = [3] ∧
    (VideoReader.read [1, 2, 3]
        (VideoReader.refresh
          (VideoReader.read [1, 2, 3] (VideoReader.init 10 (-1)) 2).2)
        (-1)).2.bufferPointer = -1 ∧
    ([3] : List Byte) ≠ [1, 2, 3] := by
  decide

/-- C5 counterexample: the claim as stated fails for the local-file reader.
On a 2-byte file, `read(5)` on a fresh reader returns the 2 available bytes —
fewer than requested — without raising any error (Python file handles simply
return short at end of file). -/
theorem local_reader_short_read_counterexample :
    (VideoReader.read [10, 20] (VideoReader.init 100 (-1)) 5).1 = [10, 20] ∧
    ([10, 20] : List Byte).length < 5 := by
  decide

/-- C5 (amended): when fewer bytes remain than requested, only the remote
reader fails — its adapter's `next` on the exhausted single-byte chunk
iterator raises `StopIteration` (src/input.py lines 177–182, modelled as
`none`); the local-file reader instead hands back the bytes still available
(possibly none), silently shorter than requested. -/
theorem exhausted_read_behavior (st : RemoteStreamState) (n : Int)
    (hn : 0 ≤ n) (hst : st.content.length < st.pos + n.toNat) :
    RemoteFileStreamAdapter.read st n = none ∧
    ∀ (src : List Byte) (cap : Nat) (tb : Int) (m : Nat),
      (VideoReader.read src (VideoReader.init cap tb) (m : Int)).1 = src.take m := by
  constructor
  · rw [RemoteFileStreamAdapter.read, if_pos hn, if_neg (by omega)]
  · intro src cap tb m
    rw [read_clean src _ m rfl rfl rfl]
    simp [fileStreamRead]

theorem exhausted_read_behavior_witness :
    (0 : Int) ≤ 5 ∧
    (RemoteStreamState.mk [10, 20] 0).content.length <
      (RemoteStreamState.mk [10, 20] 0).pos + (5 : Int).toNat ∧
    RemoteFileStreamAdapter.read { content := [10, 20], pos := 0 } 5 = none :=
  ⟨by decide, by decide,
   (exhausted_read_behavior { content := [10, 20], pos := 0 } 5
      (by decide) (by decide)).1⟩

/-- C8 (code bug, evaluated at the failing input): with a response carrying a
parseable `Content-Length: 100` header, `_init_total_bytes` leaves
`total_bytes` at the sentinel `-1` — the `headers.get['Content-Length']`
subscript of a bound method raises `TypeError` on every call and the bare
`except` swallows it — while the evident intent of the code (and the claim)
would set it to 100. -/
theorem content_length_always_ignored :
    RemoteFileReader.initTotalBytes [("Content-Length", "100")] = -1 ∧
    RemoteFileReader.initTotalBytesIntended [("Content-Length", "100")] = 100 := by
  exact ⟨rfl, by decide⟩

/-- C9: a local-file reader on a nonexistent or empty path fails with the
configuration error before any buffer state exists (the result carries no
reader state), and a remote reader on a location with no recognized scheme
exits with status `-1` — identically under every network, i.e. without any
network call. -/
theorem construction_validation :
    (∀ (fs : String → Option Nat) (loc : String) (cap : Nat),
      fs loc = none ∨ fs loc = some 0 →
      FileVideoReader.init fs loc cap = .error ("File " ++ loc ++ " not exist.")) ∧
    (∀ (net net' : String → HttpResponse) (loc : String) (cap : Nat),
      pyStartswith loc "http" = false → pyStartswith loc "ftp" = false →
      RemoteFileReader.init net loc cap = .sysExit (-1) ∧
      RemoteFileReader.init net loc cap = RemoteFileReader.init net' loc cap) := by
  constructor
  · intro fs loc cap h
    rw [FileVideoReader.init, if_pos]
    rcases h with h | h <;> simp [h]
  · intro net net' loc cap h1 h2
    constructor
    · rw [RemoteFileReader.init, if_pos (by simp [h1, h2])]
    · rw [RemoteFileReader.init, if_pos (by simp [h1, h2]),
          RemoteFileReader.init, if_pos (by simp [h1, h2])]

theorem construction_validation_witness :
    ((fun _ => none : String → Option Nat) "gone.mp4" = none ∨
      (fun _ => none : String → Option Nat) "gone.mp4" = some 0) ∧
    VideoInfo.FileVideoReader.init (fun _ => none) "gone.mp4" 10 =
      .error ("File " ++ "gone.mp4" ++ " not exist.") ∧
    VideoInfo.pyStartswith "notaurl" "http" = false ∧
    VideoInfo.pyStartswith "notaurl" "ftp" = false ∧
    VideoInfo.RemoteFileReader.init
      (fun _ => { statusCode := 200, headers := [], content := [] })
      "notaurl" 10 = .sysExit (-1) :=
  ⟨Or.inl rfl,
   construction_validation.1 (fun _ => none) "gone.mp4" 10 (Or.inl rfl),
   by decide, by decide,
   (construction_validation.2
      (fun _ => { statusCode := 200, headers := [], content := [] })
      (fun _ => { statusCode := 200, headers := [], content := [] })
      "notaurl" 10 (by decide) (by decide)).1⟩

/-- The eight bits of a byte, weighted most significant first, recompose the
byte. -/
lemma byte_bits_recompose (y : Nat) (hy : y < 256) :
    y / 128 % 2 * 128 + y / 64 % 2 * 64 + y / 32 % 2 * 32 + y / 16 % 2 * 16 +
      y / 8 % 2 * 8 + y / 4 % 2 * 4 + y / 2 % 2 * 2 + y % 2 = y := by
  omega

/-- The fractional sum computed by `read_float` for a single fraction byte
`y` — bit `i`, most significant first, contributing `2 ^ (-1 - i)` — equals
the binary fraction `y / 256`. -/
lemma byte_frac_sum (y : Nat) (hy : y < 256) :
    ((List.range (1 * 8)).map fun i =>
        (((afterPointBits y (1 * 8)).getD i 0 : Nat) : ℚ) * ((2 : ℚ) ^ (i + 1))⁻¹).sum
      = (y : ℚ) / 256 := by
  have h := byte_bits_recompose y hy
  have hQ : ((y / 128 % 2 : Nat) : ℚ) * 128 + ((y / 64 % 2 : Nat) : ℚ) * 64 +
      ((y / 32 % 2 : Nat) : ℚ) * 32 + ((y / 16 % 2 : Nat) : ℚ) * 16 +
      ((y / 8 % 2 : Nat) : ℚ) * 8 + ((y / 4 % 2 : Nat) : ℚ) * 4 +
      ((y / 2 % 2 : Nat) : ℚ) * 2 + ((y % 2 : Nat) : ℚ) = (y : ℚ) := by
    exact_mod_cast congrArg (Nat.cast : Nat → ℚ) h
  norm_num [afterPointBits, List.range_succ]
  linarith

/-- C6: `read_float(1, 1, big)` decodes its first byte as the integer part
and the bits of its second byte, most significant first and zero-indexed, as
a binary fraction with bit `i` contributing `2 ^ (-1 - i)`; on the three
header-style inputs of the specification the result is bit-exact, and in
general two bytes `x.y` decode to the dyadic value `x + y / 256`. -/
theorem read_float_fixed_point :
    (VideoReader.read_float [0x01, 0x01]
        (VideoReader.init 1048576 (-1)) 1 1 .big).1 = 1.00390625 ∧
    (VideoReader.read_float [0x11, 0x10]
        (VideoReader.init 1048576 (-1)) 1 1 .big).1 = 17.0625 ∧
    (VideoReader.read_float [0x05, 0x80]
        (VideoReader.init 1048576 (-1)) 1 1 .big).1 = 5.5 ∧
    ∀ (x y : Nat), x < 256 → y < 256 →
      (VideoReader.read_float [x, y]
          (VideoReader.init 1048576 (-1)) 1 1 .big).1 = (x : ℚ) + (y : ℚ) / 256 := by
  refine ⟨?_, ?_, ?_, ?_⟩
  · norm_num [VideoReader.read_float, VideoReader.read, VideoReader.init,
      VideoReader.isBufferFull, fileStreamRead, intFromBytes, afterPointBits,
      List.range_succ]
  · norm_num [VideoReader.read_float, VideoReader.read, VideoReader.init,
      VideoReader.isBufferFull, fileStreamRead, intFromBytes, afterPointBits,
      List.range_succ]
  · norm_num [VideoReader.read_float, VideoReader.read, VideoReader.init,
      VideoReader.isBufferFull, fileStreamRead, intFromBytes, afterPointBits,
      List.range_succ]
  · intro x y hx hy
    have hsum := byte_frac_sum y hy
    rw [VideoReader.read_float]
    norm_num [VideoReader.read, VideoReader.init, VideoReader.isBufferFull,
      fileStreamRead, intFromBytes] at hsum ⊢
    rw [← hsum]

theorem read_float_fixed_point_witness :
    (5 : Nat) < 256 ∧ (128 : Nat) < 256 ∧
    (VideoInfo.VideoReader.read_float [5, 128]
        (VideoInfo.VideoReader.init 1048576 (-1)) 1 1 .big).1
      = ((5 : Nat) : ℚ) + ((128 : Nat) : ℚ) / 256 :=
  ⟨by decide, by decide, read_float_fixed_point.2.2.2 5 128 (by decide) (by decide)⟩

end VideoInfo
